import Mathlib

/-!
Verification of the amazon_invoices worker and GUI query logic.

Shallow embedding: Python strings are modelled as `List Char`, byte buffers
as `List Nat`, the SQLite invoices table as a list of records, the download
directory as an association list from file names to byte contents.
Monetary values are modelled as exact rationals.  All definitions are
translated from src/amazon_invoices_worker.py and
src/amazon_invoices_gui_qt.py unless the doc comment says otherwise.
-/

/-- Python strings are modelled as lists of characters. -/
abbrev Str := List Char

/-- Code points of the characters for which Python's str.isspace (and hence
the regex class backslash-s and str.strip with no argument) is true. -/
def pyWsVals : List Nat :=
  [9, 10, 11, 12, 13, 28, 29, 30, 31, 32, 133, 160, 5760,
   8192, 8193, 8194, 8195, 8196, 8197, 8198, 8199, 8200, 8201, 8202,
   8232, 8233, 8239, 8287, 12288]

/-- Whether a character is whitespace in Python's sense. -/
def isPySpace (c : Char) : Bool := pyWsVals.contains c.toNat

/-- Python str.strip() with no argument: drop leading and trailing
whitespace. -/
def pyStrip (s : Str) : Str :=
  ((s.dropWhile isPySpace).reverse.dropWhile isPySpace).reverse

/-- Index of the last occurrence of a character, if any (helper for
Python's str.rfind). -/
def rfindPos : Str → Char → Option Nat
  | [], _ => none
  | a :: as, c =>
    match rfindPos as c with
    | some i => some (i + 1)
    | none => if a = c then some 0 else none

/-- Python str.rfind: index of the last occurrence, or -1 when absent. -/
def rfindIdx (s : Str) (c : Char) : Int :=
  match rfindPos s c with
  | some i => (i : Int)
  | none => -1

/-- Value of a list of ASCII digit characters read in base 10. -/
def natOfDigits (l : List Char) : Nat :=
  l.foldl (fun n c => n * 10 + (c.toNat - 48)) 0

/-- Exponent suffix of a decimal numeric string: optional sign then at
least one digit, consuming the whole remainder. -/
def parseExpTail (t : Str) : Option Int :=
  let (es, t1) : Int × Str :=
    match t with
    | '+' :: u => (1, u)
    | '-' :: u => (-1, u)
    | _ => (1, t)
  let (ds, rest) := t1.span Char.isDigit
  if ds = [] then none
  else if rest = [] then some (es * (natOfDigits ds : Int))
  else none

/-- The rational value sign * mant * 10 ^ exp / 10 ^ scale, built with
mkRat so that it evaluates by kernel reduction. -/
def decValue (sign : Int) (mant : Nat) (scale : Nat) (exp : Int) : ℚ :=
  mkRat (sign * (mant : Int) * (10 : Int) ^ exp.toNat) ((10 : Nat) ^ (scale + (-exp).toNat))

/-- Model of Python float(Decimal(s)) on decimal numeric literals: after
stripping surrounding whitespace and removing underscores, an optional
sign, digits with at most one point (at least one digit), and an optional
exponent.  The special values NaN and Infinity accepted by Decimal are not
representable here and are outside the scope of this development; parsing
failure is the None of the source's InvalidOperation handler.  The value is
kept as an exact rational. -/
def parseDecimal (raw : Str) : Option ℚ :=
  let s := (pyStrip raw).filter (fun c => c ≠ '_')
  let (sign, s1) : Int × Str :=
    match s with
    | '+' :: t => (1, t)
    | '-' :: t => (-1, t)
    | _ => (1, s)
  let (ip, s2) := s1.span Char.isDigit
  match s2 with
  | '.' :: t =>
    let (fp, s3) := t.span Char.isDigit
    if ip = [] ∧ fp = [] then none
    else
      let mant := natOfDigits (ip ++ fp)
      match s3 with
      | [] => some (decValue sign mant fp.length 0)
      | c :: u =>
        if c = 'e' ∨ c = 'E' then
          (parseExpTail u).map (fun e => decValue sign mant fp.length e)
        else none
  | [] => if ip = [] then none else some (decValue sign (natOfDigits ip) 0 0)
  | c :: u =>
    if ip = [] then none
    else if c = 'e' ∨ c = 'E' then
      (parseExpTail u).map (fun e => decValue sign (natOfDigits ip) 0 e)
    else none

/-- Translation of _normalize_amount_string (worker lines 15-51): find the
last comma and last dot, treat the more rightward one as the decimal
separator, strip the other one, convert a comma separator to a dot, and
parse the result as a decimal; None on empty or unparsable input. -/
def normalize_amount_string (amount_str : Str) : Option ℚ :=
  let cleaned := pyStrip amount_str
  if cleaned = [] then none
  else
    let last_comma := rfindIdx cleaned ','
    let last_dot := rfindIdx cleaned '.'
    let normalized :=
      if last_comma = -1 ∧ last_dot = -1 then
        (cleaned.filter (fun c => c ≠ ',')).filter (fun c => c ≠ '.')
      else if last_comma > last_dot then
        (cleaned.filter (fun c => c ≠ '.')).map (fun c => if c = ',' then '.' else c)
      else
        (cleaned.filter (fun c => c ≠ ',')).map (fun c => if c = '.' then '.' else c)
    parseDecimal normalized

/-- Modelled from the spec's words (section 4.2, locale-aware numeric
normalization): locate the last comma and last dot; whichever is more
rightward is the decimal separator; the other separator is stripped
everywhere; a comma decimal separator is converted to a dot while a dot is
left as-is; when neither is present all separators are stripped; the
canonical string is then parsed as a decimal. -/
def normalizeAmountSpec (s : Str) : Option ℚ :=
  let cleaned := pyStrip s
  if cleaned = [] then none
  else
    match rfindPos cleaned ',', rfindPos cleaned '.' with
    | none, none =>
      parseDecimal ((cleaned.filter (fun c => c ≠ ',')).filter (fun c => c ≠ '.'))
    | some _, none =>
      parseDecimal ((cleaned.filter (fun c => c ≠ '.')).map (fun c => if c = ',' then '.' else c))
    | none, some _ =>
      parseDecimal (cleaned.filter (fun c => c ≠ ','))
    | some i, some j =>
      if j < i then
        parseDecimal ((cleaned.filter (fun c => c ≠ '.')).map (fun c => if c = ',' then '.' else c))
      else
        parseDecimal (cleaned.filter (fun c => c ≠ ','))

lemma map_dot_id (l : Str) : l.map (fun c => if c = '.' then '.' else c) = l := by
  induction l with
  | nil => rfl
  | cons a as ih =>
    simp only [List.map_cons, ih]
    by_cases h : a = '.' <;> simp [h]

lemma normalize_eq_spec (s : Str) : normalize_amount_string s = normalizeAmountSpec s := by
  unfold normalize_amount_string normalizeAmountSpec
  by_cases hc : pyStrip s = []
  · simp [hc]
  · simp only [hc, if_neg]
    rcases h1 : rfindPos (pyStrip s) ',' with _ | i <;>
      rcases h2 : rfindPos (pyStrip s) '.' with _ | j <;>
        simp only [rfindIdx, h1, h2, map_dot_id]
    · simp
    · have : ¬((-1 : Int) = -1 ∧ (j : Int) = -1) := by omega
      have h3 : ¬((-1 : Int) > (j : Int)) := by omega
      simp [this, h3]
    · have : ¬((i : Int) = -1 ∧ (-1 : Int) = -1) := by omega
      have h3 : (i : Int) > -1 := by omega
      simp [this, h3]
    · have : ¬((i : Int) = -1 ∧ (j : Int) = -1) := by omega
      have h3 : ((i : Int) > (j : Int)) ↔ j < i := by omega
      simp only [this, if_false, h3]
      by_cases h4 : j < i <;> simp [h4]

example : normalize_amount_string "1.234,56".toList = some (mkRat 123456 100) := by decide
example : normalize_amount_string "1,234.56".toList = some (mkRat 123456 100) := by decide
example : normalize_amount_string "500".toList = some (mkRat 500 1) := by decide
example : normalize_amount_string "".toList = none := by decide
example : normalize_amount_string "12,34,56".toList = none := by decide

/-- C2: amount normalization takes the rightmost of the last comma and last
dot as the decimal separator, strips the other separator everywhere,
converts a comma separator to a dot, strips all separators when neither is
present, and parses the result as a decimal; the quoted examples evaluate
as claimed and empty or unparsable input yields None rather than an
exception. -/
theorem C2_normalize_amount_correct :
    (∀ s : Str, normalize_amount_string s = normalizeAmountSpec s) ∧
      normalize_amount_string "1.234,56".toList = some (mkRat 123456 100) ∧
      normalize_amount_string "1,234.56".toList = some (mkRat 123456 100) ∧
      normalize_amount_string "500".toList = some (mkRat 500 1) ∧
      normalize_amount_string "".toList = none ∧
      normalize_amount_string "12,34,56".toList = none :=
  ⟨normalize_eq_spec, by decide, by decide, by decide, by decide, by decide⟩

/-! ### The invoice store -/

/-- A row of the invoices table (worker lines 126-137): primary key
invoice_id, NOT NULL filename and downloaded_at, nullable amount,
currency, payment_ref. -/
structure InvoiceRecord where
  invoice_id : Str
  filename : Str
  amount : Option ℚ
  currency : Option Str
  payment_ref : Option Str
  downloaded_at : Str
deriving DecidableEq

/-- Translation of is_already_downloaded (worker lines 142-146): SELECT 1
FROM invoices WHERE invoice_id = ? LIMIT 1. -/
def is_already_downloaded (db : List InvoiceRecord) (invoice_id : Str) : Bool :=
  db.any (fun r => r.invoice_id == invoice_id)

/-- Translation of mark_as_downloaded (worker lines 148-171): INSERT OR
IGNORE on the invoice_id primary key followed by a commit; the timestamp is
passed explicitly in place of datetime.utcnow(). -/
def mark_as_downloaded (db : List InvoiceRecord) (invoice_id filename : Str)
    (amount : Option ℚ) (currency payment_ref : Option Str)
    (downloaded_at : Str) : List InvoiceRecord :=
  if is_already_downloaded db invoice_id then db
  else db ++ [⟨invoice_id, filename, amount, currency, payment_ref, downloaded_at⟩]

/-! ### URL handling and the link collector -/

/-- pathlib final path component: the last nonempty segment between
slashes (Path("a//b/").name is "b"). -/
def pathName (url : Str) : Str :=
  ((url.splitOn '/').filter (fun seg => seg ≠ [])).getLastD []

/-- pathlib Path(url).stem: the final path component with its suffix
removed; the suffix is the part from the last dot when that dot is neither
the first nor the last character of the component. -/
def stem (url : Str) : Str :=
  let nm := pathName url
  match rfindPos nm '.' with
  | some i => if 0 < i ∧ i + 1 < nm.length then nm.take i else nm
  | none => nm

/-- Python string comparison (code-point lexicographic), as used by
sorted() on the collected links and by the SQLite BINARY collation on the
TEXT column downloaded_at. -/
def strLe : Str → Str → Bool
  | [], _ => true
  | _ :: _, [] => false
  | a :: as, b :: bs =>
    if a.toNat < b.toNat then true
    else if a.toNat = b.toNat then strLe as bs
    else false

/-- The ordering relation on links used by sorted(). -/
def linkLe (a b : Str) : Prop := strLe a b = true

instance : DecidableRel linkLe := fun a b => by unfold linkLe; infer_instance

lemma strLe_total (a b : Str) : strLe a b = true ∨ strLe b a = true := by
  induction a generalizing b with
  | nil => left; rfl
  | cons x xs ih =>
    cases b with
    | nil => right; rfl
    | cons y ys =>
      rcases Nat.lt_trichotomy x.toNat y.toNat with h | h | h
      · left; simp [strLe, h]
      · rcases ih ys with h2 | h2
        · left; simp [strLe, h, h2]
        · right; simp [strLe, h.symm, h2]
      · right; simp [strLe, h]

lemma strLe_trans {a b c : Str} (h1 : strLe a b = true) (h2 : strLe b c = true) :
    strLe a c = true := by
  induction a generalizing b c with
  | nil => rfl
  | cons x xs ih =>
    cases b with
    | nil => simp [strLe] at h1
    | cons y ys =>
      cases c with
      | nil => simp [strLe] at h2
      | cons z zs =>
        by_cases hxy : x.toNat < y.toNat
        · by_cases hyz : y.toNat < z.toNat
          · simp [strLe, show x.toNat < z.toNat by omega]
          · by_cases hyz2 : y.toNat = z.toNat
            · simp [strLe, show x.toNat < z.toNat by omega]
            · simp [strLe, hyz, hyz2] at h2
        · by_cases hxy2 : x.toNat = y.toNat
          · have h1' : strLe xs ys = true := by simpa [strLe, hxy, hxy2] using h1
            by_cases hyz : y.toNat < z.toNat
            · simp [strLe, show x.toNat < z.toNat by omega]
            · by_cases hyz2 : y.toNat = z.toNat
              · have h2' : strLe ys zs = true := by simpa [strLe, hyz, hyz2] using h2
                simp [strLe, show ¬ x.toNat < z.toNat by omega,
                  show x.toNat = z.toNat by omega, ih h1' h2']
              · simp [strLe, hyz, hyz2] at h2
          · simp [strLe, hxy, hxy2] at h1

instance : IsTotal Str linkLe := ⟨strLe_total⟩

instance : IsTrans Str linkLe := ⟨fun _ _ _ => strLe_trans⟩

/-- Translation of collect_links_all_pages (worker lines 231-275).  The
environment is abstracted as the list of link lists the per-page scans
returned before pagination ended; the loop accumulates every link whose
derived invoice_id is not yet stored and finally sorts the accumulator. -/
def collect_links_all_pages (db : List InvoiceRecord) (pages : List (List Str)) : List Str :=
  List.insertionSort linkLe
    (pages.foldl
      (fun acc links =>
        acc ++ links.filter (fun url => !(is_already_downloaded db (stem url)))) [])

example : stem "https://www.amazon.de/b2b/aba/receipt/v2/R123.pdf".toList = "R123".toList := by
  decide
example :
    collect_links_all_pages [] [["b.pdf".toList, "a.pdf".toList], ["a.pdf".toList]] =
      ["a.pdf".toList, "a.pdf".toList, "b.pdf".toList] := by decide

lemma mark_noop (db : List InvoiceRecord) (id f : Str) (a : Option ℚ)
    (c r : Option Str) (t : Str) (h : is_already_downloaded db id = true) :
    mark_as_downloaded db id f a c r t = db := by
  unfold mark_as_downloaded
  rw [if_pos h]

lemma already_after_mark (db : List InvoiceRecord) (id f : Str) (a : Option ℚ)
    (c r : Option Str) (t : Str) :
    is_already_downloaded (mark_as_downloaded db id f a c r t) id = true := by
  unfold mark_as_downloaded
  cases h : is_already_downloaded db id with
  | true =>
    simpa using h
  | false =>
    rw [if_neg (by simp [h])]
    refine List.any_eq_true.mpr ?_
    exact ⟨⟨id, f, a, c, r, t⟩, by simp, by simp⟩

/-- C1: a second insert attempt for an invoice_id that is already stored is
a no-op, even with different field values: the stored record's fields stay
unchanged and no duplicate row is created; moreover an insert for an id
already present in any store leaves the store unchanged. -/
theorem C1_mark_as_downloaded_idempotent :
    ∀ (db : List InvoiceRecord) (id f1 f2 : Str) (a1 a2 : Option ℚ)
      (c1 c2 r1 r2 : Option Str) (t1 t2 : Str),
      mark_as_downloaded (mark_as_downloaded db id f1 a1 c1 r1 t1) id f2 a2 c2 r2 t2 =
        mark_as_downloaded db id f1 a1 c1 r1 t1 ∧
      (is_already_downloaded db id = true → mark_as_downloaded db id f1 a1 c1 r1 t1 = db) := by
  intro db id f1 f2 a1 a2 c1 c2 r1 r2 t1 t2
  exact ⟨mark_noop _ _ _ _ _ _ _ (already_after_mark db id f1 a1 c1 r1 t1),
    mark_noop _ _ _ _ _ _ _⟩

/-- Witness for C1 at a concrete store: the id R1 is stored, and
re-inserting it with different fields leaves the store unchanged. -/
theorem C1_witness :
    is_already_downloaded [⟨"R1".toList, "f1".toList, none, none, none, "t1".toList⟩]
        "R1".toList = true ∧
      mark_as_downloaded [⟨"R1".toList, "f1".toList, none, none, none, "t1".toList⟩]
          "R1".toList "f2".toList (some (mkRat 5 1)) none none "t2".toList =
        [⟨"R1".toList, "f1".toList, none, none, none, "t1".toList⟩] :=
  ⟨by decide,
    (C1_mark_as_downloaded_idempotent
        [⟨"R1".toList, "f1".toList, none, none, none, "t1".toList⟩]
        "R1".toList "f2".toList "f2".toList (some (mkRat 5 1)) (some (mkRat 5 1))
        none none none none "t2".toList "t2".toList).2 (by decide)⟩

lemma foldl_acc_append (p : Str → Bool) :
    ∀ (pages : List (List Str)) (acc : List Str),
      pages.foldl (fun acc links => acc ++ links.filter p) acc =
        acc ++ pages.flatten.filter p := by
  intro pages
  induction pages with
  | nil => intro acc; simp
  | cons l ls ih =>
    intro acc
    simp [List.foldl_cons, ih, List.filter_append, List.append_assoc]

/-- C3 counterexample: the collector output is not deduplicated — a URL
appearing on two scanned pages, with an empty store, appears twice in the
result, so the result is not a set of links. -/
theorem C3_counterexample :
    collect_links_all_pages [] [["a.pdf".toList], ["a.pdf".toList]] =
        ["a.pdf".toList, "a.pdf".toList] ∧
      ¬ (collect_links_all_pages [] [["a.pdf".toList], ["a.pdf".toList]]).Nodup := by
  exact ⟨by decide, by decide⟩

/-- C3 amended: the collector's final result is the lexicographically
sorted list of the links of all scanned pages whose derived invoice_id is
not already stored, with one entry per occurrence (the code does not
deduplicate repeated URLs), and it never contains a link whose derived
invoice_id is already present in the store. -/
theorem C3_collector_sorted_new_links :
    ∀ (db : List InvoiceRecord) (pages : List (List Str)),
      List.Sorted linkLe (collect_links_all_pages db pages) ∧
      List.Perm (collect_links_all_pages db pages)
        (pages.flatten.filter (fun url => !(is_already_downloaded db (stem url)))) ∧
      ∀ url ∈ collect_links_all_pages db pages,
        is_already_downloaded db (stem url) = false := by
  intro db pages
  have hperm :
      List.Perm (collect_links_all_pages db pages)
        (pages.flatten.filter (fun url => !(is_already_downloaded db (stem url)))) := by
    unfold collect_links_all_pages
    rw [foldl_acc_append, List.nil_append]
    exact List.perm_insertionSort linkLe _
  refine ⟨List.sorted_insertionSort linkLe _, hperm, fun url hmem => ?_⟩
  have h2 := hperm.mem_iff.mp hmem
  have h3 := (List.mem_filter.mp h2).2
  simpa using h3

/-- Witness for C3 at a concrete run: the stored id R123 never reappears in
the collector output. -/
theorem C3_witness :
    is_already_downloaded
        [⟨"R123".toList, "f".toList, none, none, none, "t".toList⟩]
        (stem "a.pdf".toList) = false :=
  (C3_collector_sorted_new_links
      [⟨"R123".toList, "f".toList, none, none, none, "t".toList⟩]
      [["a.pdf".toList]]).2.2 "a.pdf".toList (by decide)

/-! ### Filename building -/

/-- The characters rejected by the sanitizer (worker line 310). -/
def INVALID_FILENAME_CHARS : List Char := "<>:\"/\\|?*".toList

/-- Model of re.sub with pattern backslash-s-plus replaced by an
underscore: each maximal whitespace run collapses to a single underscore.
The flag records whether the previous character was whitespace. -/
def collapseWsGo : Bool → Str → Str
  | _, [] => []
  | prevWs, c :: rest =>
    if isPySpace c then
      match prevWs with
      | true => collapseWsGo true rest
      | false => '_' :: collapseWsGo true rest
    else c :: collapseWsGo false rest

/-- Collapse every whitespace run to one underscore. -/
def collapseWs (l : Str) : Str := collapseWsGo false l

/-- Python str.strip(".") on both ends. -/
def stripDots (l : Str) : Str :=
  ((l.dropWhile (fun c => c == '.')).reverse.dropWhile (fun c => c == '.')).reverse

/-- Translation of _sanitize_filename_part (worker lines 312-322): replace
characters from the invalid set and characters with code point below 32 by
an underscore, strip surrounding whitespace, collapse internal whitespace
runs to single underscores, and strip leading and trailing dots. -/
def sanitize_filename_part (part : Str) : Str :=
  let cleaned := part.map (fun ch =>
    if INVALID_FILENAME_CHARS.contains ch ∨ ch.toNat < 32 then '_' else ch)
  stripDots (collapseWs (pyStrip cleaned))

/-- Python round(x, 2) scaled by 100, on the exact rational model: the
integer nearest to 100 * q, ties rounded up.  The source rounds a binary
float with round-half-even; exact decimal ties are not representable in the
rational model, so the tie direction here is a modelling choice. -/
def pyRound2Int (q : ℚ) : Int :=
  Int.fdiv (200 * q.num + (q.den : Int)) (2 * (q.den : Int))

/-- round(x, 2) as a rational. -/
def pyRound2 (q : ℚ) : ℚ := mkRat (pyRound2Int q) 100

/-- Decimal digit string of a natural number. -/
def natToDigits (n : Nat) : Str := Nat.toDigits 10 n

/-- The f-string {amount:0.2f} of worker line 332: the amount rendered with
exactly two digits after the dot. -/
def formatAmount2 (q : ℚ) : Str :=
  let n := pyRound2Int q
  let m := n.natAbs
  (if n < 0 then ['-'] else []) ++ natToDigits (m / 100) ++ ['.'] ++
    (if m % 100 < 10 then ['0'] else []) ++ natToDigits (m % 100)

/-- The sanitized, placeholder-substituted, truncated components of the
final filename (worker lines 330-340): invoice_id, then amount_currency
when an amount was parsed and the currency is nonempty, then the payment
reference when nonempty; each component sanitized, an emptied component
replaced by rechnung (first) or teil (later), then cut to 80 characters. -/
def buildSafeParts (invoice_id : Str) (amount : Option ℚ)
    (currency payment_ref : Option Str) : List Str :=
  let parts := [invoice_id] ++
    (match amount, currency with
     | some a, some c => if c ≠ [] then [formatAmount2 a ++ '_' :: c] else []
     | _, _ => []) ++
    (match payment_ref with
     | some r => if r ≠ [] then [r] else []
     | none => [])
  parts.enum.map (fun p =>
    (if sanitize_filename_part p.2 = [] then
      (if p.1 = 0 then "rechnung".toList else "teil".toList)
     else sanitize_filename_part p.2).take 80)

/-- Python "_".join. -/
def joinUnder : List Str → Str
  | [] => []
  | p :: ps =>
    match ps with
    | [] => p
    | q :: qs => p ++ '_' :: joinUnder (q :: qs)

/-- Translation of build_final_filename (worker lines 324-341). -/
def build_final_filename (invoice_id : Str) (amount : Option ℚ)
    (currency payment_ref : Option Str) : Str :=
  joinUnder (buildSafeParts invoice_id amount currency payment_ref) ++ ".pdf".toList

example : build_final_filename "<<<".toList none none none = "___.pdf".toList := by decide
example : build_final_filename "...".toList none none none = "rechnung.pdf".toList := by decide
example :
    build_final_filename "R1".toList (some (mkRat 123456 100)) (some "EUR".toList)
      (some "xref".toList) = "R1_1234.56_EUR_xref.pdf".toList := by decide

/-- A character acceptable in a built filename component: not in the
invalid set and not a control character below code point 32. -/
def goodChar (c : Char) : Prop :=
  INVALID_FILENAME_CHARS.contains c = false ∧ 32 ≤ c.toNat

lemma mem_collapseWsGo {c : Char} :
    ∀ (b : Bool) (l : Str), c ∈ collapseWsGo b l → c = '_' ∨ c ∈ l := by
  intro b l
  induction l generalizing b with
  | nil => intro h; simp [collapseWsGo] at h
  | cons x xs ih =>
    intro h
    by_cases hx : isPySpace x
    · cases b with
      | true =>
        simp [collapseWsGo, hx] at h
        rcases ih true h with h2 | h2
        · left; exact h2
        · right; exact List.mem_cons_of_mem _ h2
      | false =>
        simp [collapseWsGo, hx] at h
        rcases h with h | h
        · left; exact h
        · rcases ih true h with h2 | h2
          · left; exact h2
          · right; exact List.mem_cons_of_mem _ h2
    · simp [collapseWsGo, hx] at h
      rcases h with h | h
      · right; exact List.mem_cons.mpr (Or.inl h)
      · rcases ih false h with h2 | h2
        · left; exact h2
        · right; exact List.mem_cons_of_mem _ h2

lemma mem_pyStrip {c : Char} {l : Str} (h : c ∈ pyStrip l) : c ∈ l := by
  unfold pyStrip at h
  rw [List.mem_reverse] at h
  have h2 := (List.dropWhile_sublist _).subset h
  rw [List.mem_reverse] at h2
  exact (List.dropWhile_sublist _).subset h2

lemma mem_stripDots {c : Char} {l : Str} (h : c ∈ stripDots l) : c ∈ l := by
  unfold stripDots at h
  rw [List.mem_reverse] at h
  have h2 := (List.dropWhile_sublist _).subset h
  rw [List.mem_reverse] at h2
  exact (List.dropWhile_sublist _).subset h2

lemma goodChar_underscore : goodChar '_' := by
  constructor <;> decide

lemma sanitize_chars {c : Char} {part : Str}
    (h : c ∈ sanitize_filename_part part) : goodChar c := by
  unfold sanitize_filename_part at h
  have h2 := mem_collapseWsGo false _ (mem_stripDots h)
  rcases h2 with h2 | h2
  · subst h2; exact goodChar_underscore
  · have h3 := mem_pyStrip h2
    rcases List.mem_map.mp h3 with ⟨x, _, hfx⟩
    by_cases hcond : INVALID_FILENAME_CHARS.contains x = true ∨ x.toNat < 32
    · rw [if_pos hcond] at hfx
      subst hfx; exact goodChar_underscore
    · rw [if_neg hcond] at hfx
      subst hfx
      push_neg at hcond
      exact ⟨Bool.not_eq_true _ ▸ Bool.eq_false_iff.mpr hcond.1, by omega⟩

lemma mem_joinUnder {c : Char} :
    ∀ L : List Str, c ∈ joinUnder L → c = '_' ∨ ∃ p ∈ L, c ∈ p := by
  intro L
  induction L with
  | nil => intro h; simp [joinUnder] at h
  | cons p ps ih =>
    intro h
    cases ps with
    | nil =>
      right; exact ⟨p, List.mem_singleton_self p, h⟩
    | cons q qs =>
      unfold joinUnder at h
      rcases List.mem_append.mp h with h2 | h2
      · right; exact ⟨p, List.mem_cons_self p _, h2⟩
      · rcases List.mem_cons.mp h2 with h3 | h3
        · left; exact h3
        · rcases ih h3 with h4 | h4
          · left; exact h4
          · rcases h4 with ⟨r, hr, hcr⟩
            right; exact ⟨r, List.mem_cons_of_mem _ hr, hcr⟩

lemma safeParts_good (invoice_id : Str) (amount : Option ℚ)
    (currency payment_ref : Option Str) :
    ∀ p ∈ buildSafeParts invoice_id amount currency payment_ref,
      p ≠ [] ∧ p.length ≤ 80 ∧ ∀ c ∈ p, goodChar c := by
  intro p hp
  rcases List.mem_map.mp hp with ⟨pair, _, hbuild⟩
  by_cases hempty : sanitize_filename_part pair.2 = []
  · rw [if_pos hempty] at hbuild
    by_cases hidx : pair.1 = 0
    · rw [if_pos hidx] at hbuild
      subst hbuild
      refine ⟨by decide, by decide, fun c hc => ?_⟩
      have : ∀ c ∈ "rechnung".toList, goodChar c := by
        intro c hc
        fin_cases hc <;> exact ⟨by decide, by decide⟩
      exact this c (List.take_subset _ _ hc)
    · rw [if_neg hidx] at hbuild
      subst hbuild
      refine ⟨by decide, by decide, fun c hc => ?_⟩
      have : ∀ c ∈ "teil".toList, goodChar c := by
        intro c hc
        fin_cases hc <;> exact ⟨by decide, by decide⟩
      exact this c (List.take_subset _ _ hc)
  · rw [if_neg hempty] at hbuild
    subst hbuild
    refine ⟨?_, ?_, fun c hc => sanitize_chars (List.take_subset _ _ hc)⟩
    · rw [Ne, List.take_eq_nil_iff]
      push_neg
      exact ⟨by omega, hempty⟩
    · rw [List.length_take]
      omega

/-- C4 counterexample: an input consisting solely of the illegal characters
yields underscores rather than the placeholder, and the DEL character
(code point 127), a control character, survives sanitization. -/
theorem C4_counterexample :
    build_final_filename "<<<".toList none none none = "___.pdf".toList ∧
      "___.pdf".toList ≠ "rechnung.pdf".toList ∧
      '\x7F' ∈ build_final_filename "a\x7F".toList none none none := by
  refine ⟨by decide, by decide, by decide⟩

/-- C4 amended: every built filename contains none of the characters
<>:"/backslash|?* and no character with code point below 32 (characters at
or above 32, such as DEL, pass through); every component is nonempty and at
most 80 characters long; a component emptied by sanitization (for example
all dots) is replaced by the placeholder rechnung or teil, while an input
of only illegal characters yields underscores; the filename always ends in
.pdf and is never empty. -/
theorem C4_filename_sanitization :
    (∀ (invoice_id : Str) (amount : Option ℚ) (currency payment_ref : Option Str),
      (∀ c ∈ build_final_filename invoice_id amount currency payment_ref,
        INVALID_FILENAME_CHARS.contains c = false ∧ 32 ≤ c.toNat) ∧
      (∀ p ∈ buildSafeParts invoice_id amount currency payment_ref,
        p ≠ [] ∧ p.length ≤ 80) ∧
      build_final_filename invoice_id amount currency payment_ref ≠ [] ∧
      ".pdf".toList <:+ build_final_filename invoice_id amount currency payment_ref) ∧
    build_final_filename "...".toList none none none = "rechnung.pdf".toList ∧
    build_final_filename "a b".toList none none (some "...".toList) =
      "a_b_teil.pdf".toList := by
  refine ⟨fun invoice_id amount currency payment_ref => ?_, by decide, by decide⟩
  have hparts := safeParts_good invoice_id amount currency payment_ref
  refine ⟨fun c hc => ?_, fun p hp => ⟨(hparts p hp).1, (hparts p hp).2.1⟩, ?_, ?_⟩
  · unfold build_final_filename at hc
    rcases List.mem_append.mp hc with h | h
    · rcases mem_joinUnder _ h with h2 | h2
      · subst h2; exact goodChar_underscore
      · rcases h2 with ⟨p, hp, hcp⟩
        exact (hparts p hp).2.2 c hcp
    · fin_cases h <;> exact ⟨by decide, by decide⟩
  · unfold build_final_filename
    intro hcontra
    have := congrArg List.length hcontra
    simp [List.length_append] at this
  · unfold build_final_filename
    exact ⟨_, rfl⟩

/-- Witness for C4 at a concrete input: the character R of the filename
built from invoice_id R1 is acceptable. -/
theorem C4_witness :
    INVALID_FILENAME_CHARS.contains 'R' = false ∧ 32 ≤ 'R'.toNat :=
  (C4_filename_sanitization.1 "R1".toList none none none).1 'R' (by decide)

/-! ### Store opening and schema migration -/

/-- A persisted SQLite table: column names and rows. -/
structure SqlTable where
  cols : List Str
  rows : List (List (Option Str))
deriving DecidableEq

/-- The database file: the invoices table and the invoices_legacy table,
each possibly absent. -/
structure DBFile where
  invoices : Option SqlTable
  invoices_legacy : Option SqlTable
deriving DecidableEq

/-- The column set required of the invoices table (worker lines 107-110). -/
def requiredCols : List Str :=
  ["invoice_id".toList, "filename".toList, "amount".toList,
   "currency".toList, "payment_ref".toList, "downloaded_at".toList]

/-- Translation of _schema_current (worker lines 104-111): the expected
column set is a subset of the table's columns. -/
def schema_current (t : SqlTable) : Bool :=
  requiredCols.all (fun c => t.cols.contains c)

/-- The freshly created invoices table of worker lines 126-137: current
schema, no rows. -/
def freshInvoicesTable : SqlTable := ⟨requiredCols, []⟩

/-- Translation of init_db (worker lines 113-140): when an invoices table
exists but lacks a required column it is renamed with ALTER TABLE invoices
RENAME TO invoices_legacy and a fresh table with the current schema is
created; when an invoices_legacy table already exists that rename raises
an uncaught sqlite3.OperationalError — None models the failing open; when
no invoices table exists a fresh one is created; otherwise nothing
changes. -/
def init_db (st : DBFile) : Option DBFile :=
  match st.invoices with
  | none => some ⟨some freshInvoicesTable, st.invoices_legacy⟩
  | some t =>
    if schema_current t then some st
    else
      match st.invoices_legacy with
      | some _ => none
      | none => some ⟨some freshInvoicesTable, some t⟩

/-- C5 counterexample: with an invoices table that lacks the payment_ref
column and an already existing invoices_legacy table, the open fails (the
ALTER TABLE rename raises an uncaught error) instead of performing the
claimed rename-and-create migration. -/
theorem C5_counterexample :
    schema_current
        ⟨["invoice_id".toList, "filename".toList, "amount".toList,
          "currency".toList, "downloaded_at".toList],
         [[some "R1".toList]]⟩ = false ∧
      init_db
        ⟨some ⟨["invoice_id".toList, "filename".toList, "amount".toList,
                "currency".toList, "downloaded_at".toList],
               [[some "R1".toList]]⟩,
         some freshInvoicesTable⟩ = none := by
  exact ⟨by decide, by decide⟩

/-- C5 amended: opening a store whose invoices table lacks a required
column renames that table to invoices_legacy with all its data intact and
creates a new empty invoices table with the current schema — provided no
invoices_legacy table already exists; with one present the rename raises
an uncaught error and no migration happens; a table that already has every
required column is left untouched. -/
theorem C5_init_db_migration :
    ∀ (st : DBFile) (t : SqlTable), st.invoices = some t →
      (schema_current t = false → st.invoices_legacy = none →
        init_db st = some ⟨some freshInvoicesTable, some t⟩ ∧
        freshInvoicesTable.rows = [] ∧
        schema_current freshInvoicesTable = true) ∧
      (schema_current t = true → init_db st = some st) ∧
      (schema_current t = false → st.invoices_legacy ≠ none → init_db st = none) := by
  intro st t hinv
  refine ⟨fun hbad hleg => ?_, fun hgood => ?_, fun hbad hleg => ?_⟩
  · have heq : init_db st = some ⟨some freshInvoicesTable, some t⟩ := by
      unfold init_db
      rw [hinv, hleg]
      simp [hbad]
    exact ⟨heq, rfl, by decide⟩
  · unfold init_db
    rw [hinv]
    simp [hgood]
  · unfold init_db
    rw [hinv]
    rcases hl : st.invoices_legacy with _ | tl
    · exact absurd hl hleg
    · simp [hbad, hl]

/-- Witness for C5: a table missing the payment_ref column, with no legacy
table present, is renamed to invoices_legacy with its row intact and
replaced by a fresh empty table. -/
theorem C5_witness :
    init_db
        ⟨some ⟨["invoice_id".toList, "filename".toList, "amount".toList,
                "currency".toList, "downloaded_at".toList],
               [[some "R1".toList]]⟩, none⟩ =
      some ⟨some freshInvoicesTable,
        some ⟨["invoice_id".toList, "filename".toList, "amount".toList,
               "currency".toList, "downloaded_at".toList],
              [[some "R1".toList]]⟩⟩ :=
  (((C5_init_db_migration
      ⟨some ⟨["invoice_id".toList, "filename".toList, "amount".toList,
              "currency".toList, "downloaded_at".toList],
             [[some "R1".toList]]⟩, none⟩
      ⟨["invoice_id".toList, "filename".toList, "amount".toList,
        "currency".toList, "downloaded_at".toList],
       [[some "R1".toList]]⟩ rfl).1 (by decide)) rfl).1

/-! ### The GUI query -/

/-- ASCII-only lower-casing, the case folding SQLite's default LIKE
applies. -/
def asciiFold (c : Char) : Char :=
  if 65 ≤ c.toNat ∧ c.toNat ≤ 90 then Char.ofNat (c.toNat + 32) else c

/-- SQLite LIKE pattern matching against a whole string: percent matches
any character sequence, underscore any single character, other characters
compare ASCII-case-insensitively. -/
def patMatch : List Char → List Char → Bool
  | [], s => s.isEmpty
  | c :: p, s =>
    if c = '%' then s.tails.any (fun suf => patMatch p suf)
    else if c = '_' then
      match s with
      | [] => false
      | _ :: s2 => patMatch p s2
    else
      match s with
      | [] => false
      | a :: s2 => (asciiFold c == asciiFold a) && patMatch p s2

/-- The LIKE test the query uses: column LIKE percent-term-percent. -/
def likeContains (term s : Str) : Bool := patMatch ('%' :: (term ++ ['%'])) s

/-- The WHERE clause of load_invoices_from_db (gui lines 86-88): any of
invoice_id, filename, payment_ref LIKE the wrapped term; a NULL
payment_ref never matches. -/
def matchesSearch (t : Str) (r : InvoiceRecord) : Bool :=
  likeContains t r.invoice_id || likeContains t r.filename ||
    match r.payment_ref with
    | some p => likeContains t p
    | none => false

/-- The ORDER BY downloaded_at DESC relation: rows ordered by descending
timestamp under the BINARY text collation. -/
def dateDesc (a b : InvoiceRecord) : Prop :=
  strLe b.downloaded_at a.downloaded_at = true

instance : DecidableRel dateDesc := fun a b => by unfold dateDesc; infer_instance

instance : IsTotal InvoiceRecord dateDesc :=
  ⟨fun a b => strLe_total b.downloaded_at a.downloaded_at⟩

instance : IsTrans InvoiceRecord dateDesc :=
  ⟨fun _ _ _ h1 h2 => strLe_trans h2 h1⟩

/-- Translation of load_invoices_from_db (gui lines 74-96): all records, or
with a truthy (nonempty) search term only the rows whose invoice_id,
filename or payment_ref is LIKE the term wrapped in percent signs; ordered
by downloaded_at descending.  The missing-file and sqlite-error early
returns of the source concern the caller's environment and are not part of
the modelled query. -/
def load_invoices_from_db (db : List InvoiceRecord) (search_term : Option Str) :
    List InvoiceRecord :=
  let rows :=
    match search_term with
    | some t => if t ≠ [] then db.filter (matchesSearch t) else db
    | none => db
  List.insertionSort dateDesc rows

/-- Case-sensitive substring containment, the relation the claim asserts
the query uses. -/
def caseSensSubstring (t s : Str) : Bool := s.tails.any (fun suf => t.isPrefixOf suf)

/-- C7 counterexample: the query is not a case-sensitive substring match.
Searching r123 returns the record whose invoice_id is R123 although no
field contains r123 case-sensitively, and searching a_c returns the record
with invoice_id abc although no field contains a_c at all (underscore is a
wildcard). -/
theorem C7_counterexample :
    load_invoices_from_db
        [⟨"R123".toList, "f".toList, none, none, none, "t".toList⟩]
        (some "r123".toList) =
      [⟨"R123".toList, "f".toList, none, none, none, "t".toList⟩] ∧
    caseSensSubstring "r123".toList "R123".toList = false ∧
    caseSensSubstring "r123".toList "f".toList = false ∧
    load_invoices_from_db
        [⟨"abc".toList, "g".toList, none, none, none, "t".toList⟩]
        (some "a_c".toList) =
      [⟨"abc".toList, "g".toList, none, none, none, "t".toList⟩] ∧
    caseSensSubstring "a_c".toList "abc".toList = false ∧
    caseSensSubstring "a_c".toList "g".toList = false := by
  refine ⟨by decide, by decide, by decide, by decide, by decide, by decide⟩

/-- C7 amended: the query returns all records when no term (or an empty
term) is given, otherwise exactly those records for which invoice_id,
filename, or payment_ref matches the SQLite LIKE pattern percent-term-
percent, an ASCII-case-insensitive match in which percent and underscore
act as wildcards and a NULL payment_ref never matches; in all cases the
result is ordered by downloaded_at descending. -/
theorem C7_query_like_ordered :
    ∀ (db : List InvoiceRecord) (search_term : Option Str),
      List.Sorted dateDesc (load_invoices_from_db db search_term) ∧
      List.Perm (load_invoices_from_db db search_term)
        (match search_term with
         | some t => if t ≠ [] then db.filter (matchesSearch t) else db
         | none => db) ∧
      ∀ (t : Str) (r : InvoiceRecord), t ≠ [] →
        (r ∈ load_invoices_from_db db (some t) ↔
          r ∈ db ∧ matchesSearch t r = true) := by
  intro db search_term
  refine ⟨List.sorted_insertionSort dateDesc _, ?_, fun t r ht => ?_⟩
  · unfold load_invoices_from_db
    exact List.perm_insertionSort dateDesc _
  · have heq : load_invoices_from_db db (some t) =
        List.insertionSort dateDesc (db.filter (matchesSearch t)) := by
      unfold load_invoices_from_db
      simp [ht]
    rw [heq, (List.perm_insertionSort dateDesc _).mem_iff]
    exact List.mem_filter

/-- Witness for C7: membership in the query result for the concrete term
r123 is equivalent to database membership plus a LIKE match. -/
theorem C7_witness :
    (⟨"R123".toList, "f".toList, none, none, none, "t".toList⟩ : InvoiceRecord) ∈
        load_invoices_from_db
          [⟨"R123".toList, "f".toList, none, none, none, "t".toList⟩]
          (some "r123".toList) ↔
      (⟨"R123".toList, "f".toList, none, none, none, "t".toList⟩ : InvoiceRecord) ∈
          [(⟨"R123".toList, "f".toList, none, none, none, "t".toList⟩ : InvoiceRecord)] ∧
        matchesSearch "r123".toList
          ⟨"R123".toList, "f".toList, none, none, none, "t".toList⟩ = true :=
  (C7_query_like_ordered
      [⟨"R123".toList, "f".toList, none, none, none, "t".toList⟩]
      (some "r123".toList)).2.2 "r123".toList
    ⟨"R123".toList, "f".toList, none, none, none, "t".toList⟩ (by decide)

/-! ### PDF field extraction -/

/-- Byte buffers are modelled as lists of byte values. -/
abbrev PdfBytes := List Nat

/-- Case-insensitive character comparison; re.IGNORECASE is modelled for
the ASCII range, which covers every letter in the source's patterns. -/
def charEqCI (a b : Char) : Bool := asciiFold a == asciiFold b

/-- Match a literal case-insensitively at the start of the input and
return the rest. -/
def matchLitCI : Str → Str → Option Str
  | [], s => some s
  | _ :: _, [] => none
  | p :: ps, c :: cs => if charEqCI p c then matchLitCI ps cs else none

/-- Greedy backslash-s-plus: at least one whitespace character, then all
following whitespace consumed. -/
def ws1 (s : Str) : Option Str :=
  match s with
  | c :: rest => if isPySpace c then some (rest.dropWhile isPySpace) else none
  | [] => none

/-- The character class of the amount capture groups: digits, dot,
comma. -/
def isAmtChar (c : Char) : Bool := c.isDigit || c == '.' || c == ','

/-- Attempt of the first amount pattern at one position (worker line 278,
Zahlbetrag backslash-s-plus capture of amount characters backslash-s-star
euro sign): the literal, whitespace, a greedy nonempty amount-character
run, optional whitespace, then the euro sign.  The three classes are
pairwise disjoint and the euro sign lies in none of them, so the greedy
run needs no backtracking. -/
def tryZahlbetragAt (s : Str) : Option Str :=
  match matchLitCI "Zahlbetrag".toList s with
  | none => none
  | some r1 =>
    match ws1 r1 with
    | none => none
    | some r2 =>
      let g := r2.takeWhile isAmtChar
      if g = [] then none
      else
        match (r2.dropWhile isAmtChar).dropWhile isPySpace with
        | c :: _ => if c = '€' then some g else none
        | [] => none

/-- Attempt of the second amount pattern at one position (worker line 279,
Total backslash-s-plus Amount, a greedy non-digit run, then the capture):
when a digit follows the literal the greedy non-digit run stops at the
first digit and the capture is the amount-character run from there; with
no digit the engine backtracks until the capture can take a dot or comma,
which leaves exactly the last such character. -/
def tryTotalAmountAt (s : Str) : Option Str :=
  match matchLitCI "Total".toList s with
  | none => none
  | some r1 =>
    match ws1 r1 with
    | none => none
    | some r2 =>
      match matchLitCI "Amount".toList r2 with
      | none => none
      | some r3 =>
        let nd := r3.takeWhile (fun c => !c.isDigit)
        let r4 := r3.dropWhile (fun c => !c.isDigit)
        match r4 with
        | _ :: _ => some (r4.takeWhile isAmtChar)
        | [] =>
          match (nd.filter (fun c => c == '.' || c == ',')).getLast? with
          | some c => some [c]
          | none => none

/-- re.search: try the pattern at each position from the left and return
the first capture. -/
def regexScan (tryAt : Str → Option Str) : Str → Option Str
  | [] => tryAt []
  | x :: tl =>
    match tryAt (x :: tl) with
    | some g => some g
    | none => regexScan tryAt tl

/-- Attempt of the first payment-reference pattern at one position (worker
line 283): the literal Zahlungsreferenznummer, whitespace, then a greedy
nonempty non-whitespace capture. -/
def tryZrefAt (s : Str) : Option Str :=
  match matchLitCI "Zahlungsreferenznummer".toList s with
  | none => none
  | some r1 =>
    match ws1 r1 with
    | none => none
    | some r2 =>
      let g := r2.takeWhile (fun c => !(isPySpace c))
      if g = [] then none else some g

/-- Attempt of the second payment-reference pattern at one position
(worker line 284): Payment, Reference, Number separated by whitespace,
optional whitespace, an optional colon or hash, optional whitespace, then
a greedy nonempty non-whitespace capture; when taking the optional
punctuation leaves nothing for the capture the engine backtracks and the
capture starts at the punctuation character itself. -/
def tryPrefAt (s : Str) : Option Str :=
  match matchLitCI "Payment".toList s with
  | none => none
  | some r1 =>
    match ws1 r1 with
    | none => none
    | some r2 =>
      match matchLitCI "Reference".toList r2 with
      | none => none
      | some r3 =>
        match ws1 r3 with
        | none => none
        | some r4 =>
          match matchLitCI "Number".toList r4 with
          | none => none
          | some r5 =>
            match r5.dropWhile isPySpace with
            | [] => none
            | c :: tl =>
              if c = ':' ∨ c = '#' then
                let g := (tl.dropWhile isPySpace).takeWhile (fun x => !(isPySpace x))
                if g = [] then
                  some ((c :: tl).takeWhile (fun x => !(isPySpace x)))
                else some g
              else
                let g := (c :: tl).takeWhile (fun x => !(isPySpace x))
                if g = [] then none else some g

/-- The only currency the worker ever assigns. -/
def eurStr : Str := "EUR".toList

/-- Translation of parse_pdf_info (worker lines 287-308): text extraction
(the external pdfminer call, abstracted as a parameter, None modelling an
exception) failing yields all-absent fields; otherwise the amount patterns
are tried in order and the loop breaks at the first match whose capture
normalizes, assigning the rounded amount together with the EUR currency;
the payment-reference patterns are tried in order, first match wins. -/
def parse_pdf_info (extractText : PdfBytes → Option Str) (pdf : PdfBytes) :
    Option ℚ × Option Str × Option Str :=
  match extractText pdf with
  | none => (none, none, none)
  | some text =>
    let a1 :=
      match regexScan tryZahlbetragAt text with
      | some g => normalize_amount_string g
      | none => none
    let amount0 :=
      match a1 with
      | some v => some v
      | none =>
        match regexScan tryTotalAmountAt text with
        | some g => normalize_amount_string g
        | none => none
    (amount0.map pyRound2,
     match amount0 with
     | some _ => some eurStr
     | none => none,
     match regexScan tryZrefAt text with
     | some g => some g
     | none => regexScan tryPrefAt text)

/-- The amended reading of the extraction contract, written from the
corrected claim: all-absent on extraction failure; the amount is the first
of (Zahlbetrag capture, Total Amount capture) that normalizes to a value,
a matching pattern whose capture fails normalization falling through to
the next; EUR is assigned exactly when an amount is found; the payment
reference is the first pattern's match, else the second's. -/
def parsePdfInfoSpec (extractText : PdfBytes → Option Str) (pdf : PdfBytes) :
    Option ℚ × Option Str × Option Str :=
  match extractText pdf with
  | none => (none, none, none)
  | some text =>
    let amount0 :=
      ((regexScan tryZahlbetragAt text).bind normalize_amount_string) <|>
        ((regexScan tryTotalAmountAt text).bind normalize_amount_string)
    (amount0.map pyRound2, amount0.map (fun _ => eurStr),
     (regexScan tryZrefAt text) <|> (regexScan tryPrefAt text))

example :
    regexScan tryZahlbetragAt "Zahlbetrag ,. € Total Amount 5".toList =
      some ",.".toList := by decide
example : normalize_amount_string ",.".toList = none := by decide
example :
    parse_pdf_info (fun _ => some "Zahlbetrag ,. € Total Amount 5".toList) [] =
      (some (mkRat 5 1), some eurStr, none) := by decide
example :
    parse_pdf_info (fun _ => some "Zahlbetrag 12,34 € bezahlt".toList) [] =
      (some (mkRat 1234 100), some eurStr, none) := by decide
example :
    parse_pdf_info (fun _ => some "Payment Reference Number: P123-4".toList) [] =
      (none, none, some "P123-4".toList) := by decide

lemma parse_eq_spec (extractText : PdfBytes → Option Str) (pdf : PdfBytes) :
    parse_pdf_info extractText pdf = parsePdfInfoSpec extractText pdf := by
  unfold parse_pdf_info parsePdfInfoSpec
  cases hx : extractText pdf with
  | none => rfl
  | some text =>
    simp only []
    have href : (match regexScan tryZrefAt text with
        | some g => some g
        | none => regexScan tryPrefAt text) =
        (regexScan tryZrefAt text <|> regexScan tryPrefAt text) := by
      cases regexScan tryZrefAt text <;> rfl
    rw [href]
    rcases h1 : regexScan tryZahlbetragAt text with _ | g1
    · simp only [h1, Option.none_bind, Option.none_orElse]
      rcases h2 : regexScan tryTotalAmountAt text with _ | g2
      · simp
      · simp only [Option.some_bind]
        rcases hn : normalize_amount_string g2 with _ | v <;> simp [hn]
    · simp only [h1, Option.some_bind]
      rcases hn : normalize_amount_string g1 with _ | v
      · simp only [hn, Option.none_orElse]
        rcases h2 : regexScan tryTotalAmountAt text with _ | g2
        · simp
        · simp only [Option.some_bind]
          rcases hn2 : normalize_amount_string g2 with _ | v2 <;> simp [hn2]
      · simp [hn]

/-- C8 counterexample: on the text Zahlbetrag ,. euro Total Amount 5 the
first amount pattern matches with capture ,. which does not normalize, yet
the extracted amount is 5 from the second pattern — so the first matching
pattern does not determine the amount. -/
theorem C8_counterexample :
    regexScan tryZahlbetragAt "Zahlbetrag ,. € Total Amount 5".toList =
        some ",.".toList ∧
      normalize_amount_string ",.".toList = none ∧
      parse_pdf_info (fun _ => some "Zahlbetrag ,. € Total Amount 5".toList) [] =
        (some (mkRat 5 1), some eurStr, none) := by
  refine ⟨by decide, by decide, by decide⟩

/-- C8 amended: extraction failure yields all-absent fields without an
exception; otherwise the amount is determined by the first amount pattern
whose capture normalizes successfully (a match whose capture fails
normalization falls through to the next pattern), the currency is EUR
exactly when an amount was found and never anything else, and the first
payment-reference pattern match determines payment_ref. -/
theorem C8_parse_pdf_info_contract :
    ∀ (extractText : PdfBytes → Option Str) (pdf : PdfBytes),
      parse_pdf_info extractText pdf = parsePdfInfoSpec extractText pdf ∧
      (extractText pdf = none → parse_pdf_info extractText pdf = (none, none, none)) ∧
      (∀ c, (parse_pdf_info extractText pdf).2.1 = some c → c = eurStr) ∧
      ((parse_pdf_info extractText pdf).2.1.isSome ↔
        (parse_pdf_info extractText pdf).1.isSome) := by
  intro extractText pdf
  have heq := parse_eq_spec extractText pdf
  refine ⟨heq, fun hnone => ?_, ?_, ?_⟩
  · unfold parse_pdf_info
    rw [hnone]
  · rw [heq]
    unfold parsePdfInfoSpec
    cases hx : extractText pdf with
    | none => intro c hc; simp at hc
    | some text =>
      intro c hc
      rcases ((regexScan tryZahlbetragAt text).bind normalize_amount_string) <|>
          ((regexScan tryTotalAmountAt text).bind normalize_amount_string) with _ | v
      all_goals
        rcases ha : ((regexScan tryZahlbetragAt text).bind normalize_amount_string) <|>
            ((regexScan tryTotalAmountAt text).bind normalize_amount_string) with _ | w <;>
          simp [ha] at hc
      · exact hc.symm
      · exact hc.symm
  · rw [heq]
    unfold parsePdfInfoSpec
    cases hx : extractText pdf with
    | none => simp
    | some text =>
      rcases ha : ((regexScan tryZahlbetragAt text).bind normalize_amount_string) <|>
          ((regexScan tryTotalAmountAt text).bind normalize_amount_string) with _ | w <;>
        simp [ha]

/-- Witness for C8: failing text extraction yields all-absent fields. -/
theorem C8_witness :
    parse_pdf_info (fun _ => none) [] = (none, none, none) :=
  (C8_parse_pdf_info_contract (fun _ => none) []).2.1 rfl

/-! ### The download engine -/

/-- The download directory: an association from file names to byte
contents. -/
abbrev FileSys := List (Str × PdfBytes)

/-- Whether a file with the given name exists. -/
def fsMem (fs : FileSys) (nm : Str) : Bool := fs.any (fun e => e.1 == nm)

/-- Contents of the named file, if present. -/
def fsLookup (fs : FileSys) (nm : Str) : Option PdfBytes :=
  (fs.find? (fun e => e.1 == nm)).map (fun e => e.2)

/-- Delete the named file. -/
def fsRemove (fs : FileSys) (nm : Str) : FileSys :=
  fs.filter (fun e => !(e.1 == nm))

/-- Write (create or overwrite) the named file. -/
def fsWrite (fs : FileSys) (nm : Str) (data : PdfBytes) : FileSys :=
  (nm, data) :: fsRemove fs nm

/-- Path.rename: move the contents of src to dst. -/
def fsRename (fs : FileSys) (src dst : Str) : FileSys :=
  match fsLookup fs src with
  | none => fs
  | some d => fsWrite (fsRemove fs src) dst d

/-- The state a download strategy threads: the download directory and the
invoices table. -/
structure WorkerSt where
  files : FileSys
  db : List InvoiceRecord
deriving DecidableEq

/-- Outcome of one streamed GET (worker lines 358-366): a raised
RequestException, or a response with a status code and a body. -/
inductive FetchResult where
  | requestError
  | response (status : Nat) (body : PdfBytes)
deriving DecidableEq

/-- The first four bytes of every PDF: the code points of percent P D F. -/
def pdfMagic : PdfBytes := [37, 80, 68, 70]

/-- data.startswith(b"%PDF"). -/
def isPdf (data : PdfBytes) : Bool := data.take 4 == pdfMagic

/-- One iteration of the requests-strategy loop (worker lines 355-390):
skip on a request error, a non-200 status, or a missing PDF header;
otherwise parse, build the final name, and either register the record
directly when the destination already exists or write the file and then
register the record.  The HTTP layer is abstracted as the fetch function
and pdfminer as extractText; now stands for datetime.utcnow(). -/
def reqStep (extractText : PdfBytes → Option Str) (fetch : Str → FetchResult)
    (now : Str) (st : WorkerSt) (url : Str) : WorkerSt :=
  let invoice_id := stem url
  match fetch url with
  | .requestError => st
  | .response status data =>
    if status ≠ 200 then st
    else if !(isPdf data) then st
    else
      match parse_pdf_info extractText data with
      | (amount, currency, payment_ref) =>
        let final_name := build_final_filename invoice_id amount currency payment_ref
        if fsMem st.files final_name then
          ⟨st.files,
           mark_as_downloaded st.db invoice_id final_name amount currency payment_ref now⟩
        else
          ⟨fsWrite st.files final_name data,
           mark_as_downloaded st.db invoice_id final_name amount currency payment_ref now⟩

/-- Translation of download_with_requests (worker lines 343-392). -/
def download_with_requests (extractText : PdfBytes → Option Str)
    (fetch : Str → FetchResult) (now : Str) (st : WorkerSt) (links : List Str) :
    WorkerSt :=
  links.foldl (reqStep extractText fetch now) st

/-- One iteration of the browser-strategy loop (worker lines 420-464).
The navigation, _wait_for_download polling and read_bytes are abstracted
as dl, which given the url and the directory contents either fails (no
usable download appeared: navigation error, poll timeout, unreadable
file) or yields the name and bytes of the file _wait_for_download settled
on — normally the freshly saved download, but via the expected-filename
branch of worker line 402 possibly a file that already existed.  A payload
without the PDF header deletes the artifact and skips; otherwise the file
is renamed to the built final name unless that name already exists, in
which case the duplicate download is deleted; in both cases the record is
then registered. -/
def browStep (extractText : PdfBytes → Option Str)
    (dl : Str → FileSys → Option (Str × PdfBytes)) (now : Str)
    (st : WorkerSt) (url : Str) : WorkerSt :=
  let invoice_id := stem url
  match dl url st.files with
  | none => st
  | some (nm, data) =>
    let files1 := fsWrite st.files nm data
    if !(isPdf data) then ⟨fsRemove files1 nm, st.db⟩
    else
      match parse_pdf_info extractText data with
      | (amount, currency, payment_ref) =>
        let dest := build_final_filename invoice_id amount currency payment_ref
        if fsMem files1 dest then
          ⟨if nm = dest then files1 else fsRemove files1 nm,
           mark_as_downloaded st.db invoice_id dest amount currency payment_ref now⟩
        else
          ⟨fsRename files1 nm dest,
           mark_as_downloaded st.db invoice_id dest amount currency payment_ref now⟩

/-- Translation of download_with_browser (worker lines 419-464). -/
def download_with_browser (extractText : PdfBytes → Option Str)
    (dl : Str → FileSys → Option (Str × PdfBytes)) (now : Str)
    (st : WorkerSt) (links : List Str) : WorkerSt :=
  links.foldl (browStep extractText dl now) st

lemma fsRemove_write (fs : FileSys) (nm : Str) (d : PdfBytes) :
    fsRemove (fsWrite fs nm d) nm = fsRemove fs nm := by
  unfold fsWrite fsRemove
  rw [List.filter_cons]
  simp [List.filter_filter]

lemma fsMem_remove_self (fs : FileSys) (nm : Str) :
    fsMem (fsRemove fs nm) nm = false := by
  induction fs with
  | nil => rfl
  | cons e es ih =>
    unfold fsMem fsRemove at ih ⊢
    rw [List.filter_cons]
    by_cases he : e.1 = nm
    · simp [he, ih]
    · have hne : (e.1 == nm) = false := beq_eq_false_iff_ne.mpr he
      simp [hne, ih]

lemma fsMem_remove_ne {fs : FileSys} {nm x : Str} (h : x ≠ nm) :
    fsMem (fsRemove fs nm) x = fsMem fs x := by
  induction fs with
  | nil => rfl
  | cons e es ih =>
    unfold fsMem fsRemove at ih ⊢
    rw [List.filter_cons]
    by_cases he : e.1 = nm
    · have hex : (e.1 == x) = false := beq_eq_false_iff_ne.mpr (by rw [he]; exact (Ne.symm h))
      have hbe : (e.1 == nm) = true := beq_iff_eq.mpr he
      rw [hbe, if_neg (by simp)]
      simp only [List.any_cons, hex, Bool.false_or]
      exact ih
    · have hne : (e.1 == nm) = false := beq_eq_false_iff_ne.mpr he
      rw [hne, if_pos (by simp)]
      simp only [List.any_cons]
      rw [ih]

lemma fsMem_write_self (fs : FileSys) (nm : Str) (d : PdfBytes) :
    fsMem (fsWrite fs nm d) nm = true := by
  unfold fsWrite fsMem
  rw [List.any_cons]
  simp

lemma fsMem_write_of_mem {fs : FileSys} {x : Str} (nm : Str) (d : PdfBytes)
    (h : fsMem fs x = true) : fsMem (fsWrite fs nm d) x = true := by
  by_cases hx : x = nm
  · subst hx; exact fsMem_write_self fs x d
  · unfold fsWrite
    unfold fsMem
    rw [List.any_cons, Bool.or_eq_true]
    refine Or.inr ?_
    show fsMem (fsRemove fs nm) x = true
    rw [fsMem_remove_ne hx]
    exact h

lemma fsLookup_write_self (fs : FileSys) (nm : Str) (d : PdfBytes) :
    fsLookup (fsWrite fs nm d) nm = some d := by
  unfold fsLookup fsWrite
  rw [List.find?_cons_of_pos _ (by simp)]
  rfl

/-- C6: a payload whose bytes do not begin with the PDF signature is
rejected by both strategies: the requests strategy leaves the state
unchanged (nothing written, nothing persisted), and the browser strategy
deletes the downloaded artifact and persists nothing. -/
theorem C6_pdf_magic_rejected :
    ∀ (extractText : PdfBytes → Option Str) (fetch : Str → FetchResult)
      (dl : Str → FileSys → Option (Str × PdfBytes)) (now url : Str)
      (st : WorkerSt) (data : PdfBytes),
      (fetch url = FetchResult.response 200 data → isPdf data = false →
        reqStep extractText fetch now st url = st) ∧
      (∀ nm, dl url st.files = some (nm, data) → isPdf data = false →
        browStep extractText dl now st url = ⟨fsRemove st.files nm, st.db⟩ ∧
        fsMem (browStep extractText dl now st url).files nm = false ∧
        (browStep extractText dl now st url).db = st.db) := by
  intro extractText fetch dl now url st data
  constructor
  · intro hf hpdf
    unfold reqStep
    rw [hf]
    simp [hpdf]
  · intro nm hdl hpdf
    have heq : browStep extractText dl now st url = ⟨fsRemove st.files nm, st.db⟩ := by
      unfold browStep
      rw [hdl]
      simp only [hpdf, Bool.not_false, if_true, fsRemove_write]
    exact ⟨heq, by rw [heq]; exact fsMem_remove_self st.files nm, by rw [heq]⟩

/-- Witness for C6: a one-byte payload is rejected by both strategies at a
concrete state. -/
theorem C6_witness :
    reqStep (fun _ => none) (fun _ => FetchResult.response 200 [0]) "t".toList
        ⟨[], []⟩ "u".toList = ⟨[], []⟩ ∧
      browStep (fun _ => none) (fun _ _ => some ("x.pdf".toList, [0])) "t".toList
        ⟨[], []⟩ "u".toList = ⟨fsRemove [] "x.pdf".toList, []⟩ :=
  ⟨(C6_pdf_magic_rejected (fun _ => none) (fun _ => FetchResult.response 200 [0])
      (fun _ _ => some ("x.pdf".toList, [0])) "t".toList "u".toList ⟨[], []⟩ [0]).1
      rfl (by decide),
   ((C6_pdf_magic_rejected (fun _ => none) (fun _ => FetchResult.response 200 [0])
      (fun _ _ => some ("x.pdf".toList, [0])) "t".toList "u".toList ⟨[], []⟩ [0]).2
      "x.pdf".toList rfl (by decide)).1⟩

/-- The first branch of _wait_for_download (worker lines 396-403): when a
file named invoice_id.pdf already exists in the download directory with
content, it is returned immediately — without consulting the before
snapshot — even when the navigation saved nothing new. -/
def waitExpectedShortcut (url : Str) (fs : FileSys) : Option (Str × PdfBytes) :=
  match fsLookup fs (stem url ++ ".pdf".toList) with
  | some data => some (stem url ++ ".pdf".toList, data)
  | none => none

/-- The write-then-persist invariant: every record registered in the store
names an artifact that exists in the download directory. -/
def storeInv (st : WorkerSt) : Prop :=
  ∀ r ∈ st.db, fsMem st.files r.filename = true

instance (st : WorkerSt) : Decidable (storeInv st) := by
  unfold storeInv
  infer_instance

lemma storeInv_mark {fs : FileSys} {db : List InvoiceRecord} {id final : Str}
    {a : Option ℚ} {c p : Option Str} {now : Str}
    (hdb : ∀ r ∈ db, fsMem fs r.filename = true)
    (hfinal : fsMem fs final = true) :
    ∀ r ∈ mark_as_downloaded db id final a c p now, fsMem fs r.filename = true := by
  intro r hr
  unfold mark_as_downloaded at hr
  by_cases h : is_already_downloaded db id = true
  · rw [if_pos h] at hr
    exact hdb r hr
  · rw [if_neg h] at hr
    rcases List.mem_append.mp hr with h2 | h2
    · exact hdb r h2
    · have := List.mem_singleton.mp h2
      subst this
      exact hfinal

lemma reqStep_inv {extractText : PdfBytes → Option Str} {fetch : Str → FetchResult}
    {now : Str} {st : WorkerSt} {url : Str} (hinv : storeInv st) :
    storeInv (reqStep extractText fetch now st url) := by
  unfold reqStep
  cases fetch url with
  | requestError => exact hinv
  | response status data =>
    simp only []
    by_cases h200 : status ≠ 200
    · rw [if_pos h200]; exact hinv
    · rw [if_neg h200]
      by_cases hpdf : (!(isPdf data)) = true
      · rw [if_pos hpdf]; exact hinv
      · rw [if_neg hpdf]
        rcases hp : parse_pdf_info extractText data with ⟨amount, currency, payment_ref⟩
        simp only
        by_cases hex : fsMem st.files
            (build_final_filename (stem url) amount currency payment_ref) = true
        · rw [if_pos hex]
          exact storeInv_mark hinv hex
        · rw [if_neg hex]
          intro r hr
          refine storeInv_mark (fun r2 hr2 => fsMem_write_of_mem _ _ (hinv r2 hr2))
            (fsMem_write_self _ _ _) r hr

lemma browStep_inv {extractText : PdfBytes → Option Str}
    {dl : Str → FileSys → Option (Str × PdfBytes)} {now : Str} {st : WorkerSt}
    {url : Str}
    (hfresh : ∀ url fs nm data, dl url fs = some (nm, data) → fsMem fs nm = false)
    (hinv : storeInv st) :
    storeInv (browStep extractText dl now st url) := by
  unfold browStep
  cases hdl : dl url st.files with
  | none => exact hinv
  | some pr =>
    rcases pr with ⟨nm, data⟩
    simp only []
    have hnmfresh : fsMem st.files nm = false := hfresh url st.files nm data hdl
    have hrne : ∀ r ∈ st.db, r.filename ≠ nm := by
      intro r hr heq
      have h1 := hinv r hr
      rw [heq] at h1
      rw [h1] at hnmfresh
      exact Bool.noConfusion hnmfresh
    by_cases hpdf : (!(isPdf data)) = true
    · rw [if_pos hpdf]
      intro r hr
      show fsMem (fsRemove (fsWrite st.files nm data) nm) r.filename = true
      rw [fsRemove_write, fsMem_remove_ne (hrne r hr)]
      exact hinv r hr
    · rw [if_neg hpdf]
      rcases hp : parse_pdf_info extractText data with ⟨amount, currency, payment_ref⟩
      simp only []
      by_cases hex : fsMem (fsWrite st.files nm data)
          (build_final_filename (stem url) amount currency payment_ref) = true
      · rw [if_pos hex]
        by_cases hnd : nm = build_final_filename (stem url) amount currency payment_ref
        · rw [if_pos hnd]
          exact storeInv_mark
            (fun r2 hr2 => fsMem_write_of_mem _ _ (hinv r2 hr2)) hex
        · rw [if_neg hnd]
          refine storeInv_mark (fun r2 hr2 => ?_) ?_
          · rw [fsMem_remove_ne (hrne r2 hr2)]
            exact fsMem_write_of_mem _ _ (hinv r2 hr2)
          · rw [fsMem_remove_ne (fun h => hnd h.symm)]
            exact hex
      · rw [if_neg hex]
        have hren : fsRename (fsWrite st.files nm data) nm
            (build_final_filename (stem url) amount currency payment_ref) =
            fsWrite (fsRemove (fsWrite st.files nm data) nm)
              (build_final_filename (stem url) amount currency payment_ref) data := by
          unfold fsRename
          rw [fsLookup_write_self]
        rw [hren, fsRemove_write]
        refine storeInv_mark (fun r2 hr2 => ?_) (fsMem_write_self _ _ _)
        apply fsMem_write_of_mem
        rw [fsMem_remove_ne (hrne r2 hr2)]
        exact hinv r2 hr2

lemma download_requests_inv {extractText : PdfBytes → Option Str}
    {fetch : Str → FetchResult} {now : Str} :
    ∀ (links : List Str) (st : WorkerSt), storeInv st →
      storeInv (download_with_requests extractText fetch now st links) := by
  intro links
  induction links with
  | nil => intro st h; exact h
  | cons l ls ih =>
    intro st h
    exact ih (reqStep extractText fetch now st l) (reqStep_inv h)

lemma download_browser_inv {extractText : PdfBytes → Option Str}
    {dl : Str → FileSys → Option (Str × PdfBytes)} {now : Str}
    (hfresh : ∀ url fs nm data, dl url fs = some (nm, data) → fsMem fs nm = false) :
    ∀ (links : List Str) (st : WorkerSt), storeInv st →
      storeInv (download_with_browser extractText dl now st links) := by
  intro links
  induction links with
  | nil => intro st h; exact h
  | cons l ls ih =>
    intro st h
    exact ih (browStep extractText dl now st l) (browStep_inv hfresh h)

/-- C9 counterexample: from a state satisfying the invariant — record R1
with artifact R1_5.00_EUR.pdf on disk — processing the uncollected link
ending in R1_5.00_EUR.pdf makes the expected-filename branch of
_wait_for_download return that registered artifact (nothing new was
saved); its bytes parse to amount 5.00 EUR, the built destination
R1_5.00_EUR_5.00_EUR.pdf differs, and the rename removes the registered
artifact, leaving record R1 pointing to a file that no longer exists. -/
theorem C9_counterexample :
    storeInv
        ⟨[("R1_5.00_EUR.pdf".toList, [37, 80, 68, 70])],
         [⟨"R1".toList, "R1_5.00_EUR.pdf".toList, none, none, none, "t0".toList⟩]⟩ ∧
      ¬ storeInv (download_with_browser
          (fun _ => some "Zahlbetrag 5,00 €".toList) waitExpectedShortcut
          "t1".toList
          ⟨[("R1_5.00_EUR.pdf".toList, [37, 80, 68, 70])],
           [⟨"R1".toList, "R1_5.00_EUR.pdf".toList, none, none, none, "t0".toList⟩]⟩
          ["https://www.amazon.de/b2b/aba/receipt/v2/R1_5.00_EUR.pdf".toList]) ∧
      (⟨"R1".toList, "R1_5.00_EUR.pdf".toList, none, none, none,
          "t0".toList⟩ : InvoiceRecord) ∈
        (download_with_browser
          (fun _ => some "Zahlbetrag 5,00 €".toList) waitExpectedShortcut
          "t1".toList
          ⟨[("R1_5.00_EUR.pdf".toList, [37, 80, 68, 70])],
           [⟨"R1".toList, "R1_5.00_EUR.pdf".toList, none, none, none, "t0".toList⟩]⟩
          ["https://www.amazon.de/b2b/aba/receipt/v2/R1_5.00_EUR.pdf".toList]).db ∧
      fsMem (download_with_browser
          (fun _ => some "Zahlbetrag 5,00 €".toList) waitExpectedShortcut
          "t1".toList
          ⟨[("R1_5.00_EUR.pdf".toList, [37, 80, 68, 70])],
           [⟨"R1".toList, "R1_5.00_EUR.pdf".toList, none, none, none, "t0".toList⟩]⟩
          ["https://www.amazon.de/b2b/aba/receipt/v2/R1_5.00_EUR.pdf".toList]).files
        "R1_5.00_EUR.pdf".toList = false := by
  refine ⟨by decide, by decide, by decide, by decide⟩

/-- C9 amended: write-then-persist per item holds in both strategies (the
artifact is written or confirmed before the record is persisted), and the
run-wide invariant that every registered record's artifact exists on disk
is preserved by processing any list of links — for the browser strategy
provided every polled download is a file that was not already present in
the directory (the before-snapshot filter); without that proviso the
expected-filename shortcut of _wait_for_download can hand the loop a
registered artifact, which the rename step then removes. -/
theorem C9_write_then_persist :
    ∀ (extractText : PdfBytes → Option Str) (fetch : Str → FetchResult)
      (dl : Str → FileSys → Option (Str × PdfBytes)) (now : Str)
      (links : List Str) (st : WorkerSt),
      storeInv st →
      storeInv (download_with_requests extractText fetch now st links) ∧
      ((∀ url fs nm data, dl url fs = some (nm, data) → fsMem fs nm = false) →
        storeInv (download_with_browser extractText dl now st links)) := by
  intro extractText fetch dl now links st hinv
  exact ⟨download_requests_inv links st hinv,
    fun hfresh => download_browser_inv hfresh links st hinv⟩

/-- Witness for C9 at a concrete run: one link fetched successfully by the
requests strategy from the empty store keeps the invariant. -/
theorem C9_witness :
    storeInv (download_with_requests (fun _ => none)
        (fun _ => FetchResult.response 200 (37 :: 80 :: 68 :: 70 :: []))
        "t".toList ⟨[], []⟩ ["R1.pdf".toList]) ∧
      storeInv (download_with_browser (fun _ => none)
        (fun _ _ => none) "t".toList ⟨[], []⟩ ["R1.pdf".toList]) := by
  have h := C9_write_then_persist (fun _ => none)
    (fun _ => FetchResult.response 200 (37 :: 80 :: 68 :: 70 :: []))
    (fun _ _ => none) "t".toList ["R1.pdf".toList] ⟨[], []⟩
    (fun r hr => absurd hr (List.not_mem_nil r))
  exact ⟨h.1, h.2 (fun url fs nm data hcontra => Option.noConfusion hcontra)⟩

/-! ### The worker entry point -/

/-- Python truthiness test `not s` for an optional string: unset or
empty. -/
def pyFalsy (s : Option Str) : Bool :=
  match s with
  | none => true
  | some l => l.isEmpty

/-- The externally visible effects of the run prologue, in order. -/
inductive RunEvent where
  | logLine (msg : Str)
  | createDownloadDir
  | startBrowser
  | openStore
  | mainFlow
deriving DecidableEq

/-- The credential hint logged at worker line 90. -/
def credErrMsg : Str := "Bitte AMZ_USER und AMZ_PW in der .env setzen".toList

/-- The chromedriver failure message of worker line 190 (its dynamic
exception text abstracted away). -/
def chromeErrMsg : Str := "Chromedriver konnte nicht gestartet werden".toList

/-- Translation of the control flow of run (worker lines 87-95, 187-191
and 466-480) as the ordered trace of its externally visible effects: when
either credential is falsy (unset or empty) the worker logs the hint and
returns before anything else happens; otherwise it creates the download
directory, starts the browser (logging and returning on failure), opens
the store and enters the main flow. -/
def run (user pw : Option Str) (chromedriverOk : Bool) : List RunEvent :=
  if pyFalsy user || pyFalsy pw then [RunEvent.logLine credErrMsg]
  else
    RunEvent.createDownloadDir ::
      (if chromedriverOk then
        [RunEvent.startBrowser, RunEvent.openStore, RunEvent.mainFlow]
       else [RunEvent.logLine chromeErrMsg])

/-- C10: with AMZ_USER or AMZ_PW unset or empty the worker only logs the
hint and returns: no download directory is created, no store is opened,
and no browser session is started. -/
theorem C10_missing_credentials_abort :
    ∀ (user pw : Option Str) (chromedriverOk : Bool),
      (pyFalsy user || pyFalsy pw) = true →
      run user pw chromedriverOk = [RunEvent.logLine credErrMsg] ∧
      RunEvent.createDownloadDir ∉ run user pw chromedriverOk ∧
      RunEvent.openStore ∉ run user pw chromedriverOk ∧
      RunEvent.startBrowser ∉ run user pw chromedriverOk := by
  intro user pw ok h
  have heq : run user pw ok = [RunEvent.logLine credErrMsg] := by
    unfold run
    rw [if_pos h]
  refine ⟨heq, ?_, ?_, ?_⟩ <;> rw [heq] <;> simp

/-- Witness for C10: an unset user with a set password aborts with only the
logged hint. -/
theorem C10_witness :
    run none (some "pw".toList) true = [RunEvent.logLine credErrMsg] :=
  (C10_missing_credentials_abort none (some "pw".toList) true (by decide)).1
